import Mathlib

/-!
Verification development for the LLM CLI helper repository
(`cli_helper.py` and `web_app.py`).

Python strings are modelled as `List Char`.  The Python string
operations used by the source (`in`, `split(sep, 1)`, `strip()`,
`replace(old, new)`, `lower()`, `" ".join(...)`) are embedded as
executable functions on `List Char` below.  `strip` models the ASCII
whitespace characters and `lower` the ASCII letters; every marker and
label literal of the repository is handled exactly.
-/

/-- Python `s.startswith(pat)`: the pattern occurs at the head of the string. -/
def startsWithL : List Char → List Char → Bool
  | _, [] => true
  | [], _ :: _ => false
  | c :: s, p :: ps => c == p && startsWithL s ps

/-- Python `pat in s`: substring containment. -/
def hasSub : List Char → List Char → Bool
  | [], pat => startsWithL [] pat
  | c :: s, pat => startsWithL (c :: s) pat || hasSub s pat

/-- Split `s` around the first occurrence of `pat`: this is Python
`s.split(pat, 1)` restricted to a non-empty separator, returning the two
parts when the separator occurs and `none` when it does not. -/
def splitOnce (pat : List Char) : List Char → Option (List Char × List Char)
  | [] => none
  | c :: s =>
    if startsWithL (c :: s) pat then some ([], s.drop (pat.length - 1))
    else
      match splitOnce pat s with
      | some (a, b) => some (c :: a, b)
      | none => none

/-- ASCII whitespace as recognised by Python `str.strip` (the source only
ever strips markdown text whose surrounding whitespace is ASCII). -/
def isPySpace (c : Char) : Bool :=
  c == ' ' || c == '\t' || c == '\n' || c == '\r' || c == '\x0b' || c == '\x0c'

/-- Remove leading whitespace. -/
def stripLeft (s : List Char) : List Char :=
  match s with
  | [] => []
  | c :: t => if isPySpace c then stripLeft t else c :: t

/-- Python `s.strip()`. -/
def pyStrip (s : List Char) : List Char :=
  (stripLeft (stripLeft s).reverse).reverse

/-- Auxiliary scanner for `replaceAll`; a positive first argument makes it
skip that many characters (the tail of a match whose replacement was
already emitted). -/
def replAux (pat repl : List Char) : Nat → List Char → List Char
  | _, [] => []
  | Nat.succ k, _ :: s => replAux pat repl k s
  | 0, c :: s =>
    if startsWithL (c :: s) pat then repl ++ replAux pat repl (pat.length - 1) s
    else c :: replAux pat repl 0 s

/-- Python `s.replace(pat, repl)` for a non-empty `pat`: replace every
occurrence, scanning left to right without overlap. -/
def replaceAll (pat repl s : List Char) : List Char :=
  replAux pat repl 0 s

/-- Convenience: the character list of a string literal. -/
def lit (s : String) : List Char :=
  s.toList

/-- The tagged shell-block opener searched for first (cli_helper.py line 102). -/
def bashMarker : List Char := lit "```bash"

/-- The bare triple-backtick marker: the block closer, and the untagged
opener of the fallback branch (cli_helper.py lines 106 and 110). -/
def fence : List Char := lit "```"

/-- The backtick character. -/
def tick : Char := fence.headD ' '

/-- Full-width explanation label removed at cli_helper.py line 124. -/
def labelFull : List Char := lit "说明："

/-- Half-width explanation label removed at cli_helper.py line 124. -/
def labelHalf : List Char := lit "说明:"

/-- Result dictionary of `parse_response` (cli_helper.py lines 126-130). -/
structure ParsedResult where
  code : List Char
  explanation : List Char
  raw : List Char
  deriving DecidableEq

/-- Label cleanup applied to the explanation (cli_helper.py line 124):
remove every occurrence of the full-width label, then every occurrence of
the half-width label, then trim surrounding whitespace. -/
def cleanLabel (e : List Char) : List Char :=
  pyStrip (replaceAll labelHalf [] (replaceAll labelFull [] e))

/-- Tagged branch of the parser (cli_helper.py lines 102-109): split after
the first occurrence of the tagged opener, then split the remainder at the
next bare fence; both parts are trimmed.  When the opener is absent the
split yields one part and nothing is extracted; likewise when the
remainder holds no closer. -/
def taggedStrategy (content : List Char) : List Char × List Char :=
  match splitOnce bashMarker content with
  | none => ([], [])
  | some (_, rest) =>
    if hasSub rest fence then
      match splitOnce fence rest with
      | some (codePart, textPart) => (pyStrip codePart, pyStrip textPart)
      | none => ([], [])
    else ([], [])

/-- Untagged branch of the parser (cli_helper.py lines 110-117): the same
split logic driven by the bare fence. -/
def genericStrategy (content : List Char) : List Char × List Char :=
  match splitOnce fence content with
  | none => ([], [])
  | some (_, rest) =>
    if hasSub rest fence then
      match splitOnce fence rest with
      | some (codePart, textPart) => (pyStrip codePart, pyStrip textPart)
      | none => ([], [])
    else ([], [])

/-- Embedding of `parse_response` (cli_helper.py lines 94-130).  The
tagged branch is attempted when the tagged opener occurs anywhere in the
reply; otherwise the untagged branch is attempted when a bare fence
occurs; when both extracted fields are empty the whole reply becomes the
explanation candidate; the label cleanup always runs last and the raw
input is always retained. -/
def parse_response (content : List Char) : ParsedResult :=
  let cb :=
    if hasSub content bashMarker then taggedStrategy content
    else if hasSub content fence then genericStrategy content
    else (([] : List Char), ([] : List Char))
  let e1 := if cb.1.isEmpty && cb.2.isEmpty then content else cb.2
  { code := cb.1, explanation := cleanLabel e1, raw := content }

/-!
Fallible variant of the parser, used to settle the totality claim.  Each
Python primitive that can raise is modelled with an explicit error value:
`str.split` raises `ValueError` on an empty separator, and tuple
unpacking `a, b = xs` raises `ValueError` unless the list has exactly two
elements.  `strip` and `replace` cannot raise and stay pure.
-/

/-- Python `s.split(sep, 1)` with its failure mode: an empty separator
raises `ValueError`. -/
def pySplit1 (sep s : List Char) : Except (List Char) (List (List Char)) :=
  if sep.isEmpty then Except.error (lit "empty separator")
  else
    match splitOnce sep s with
    | some (a, b) => Except.ok [a, b]
    | none => Except.ok [s]

/-- Message of the `ValueError` raised by a failed two-element unpacking. -/
def unpackErr : List Char := lit "not enough values to unpack"

/-- Fallible tagged branch (cli_helper.py lines 102-109): the outer split
result is indexed only after a length check, while the inner split is
unpacked directly into `code_part, text_part`, which would raise were the
separator absent from `rest`. -/
def taggedStrategyE (content : List Char) : Except (List Char) (List Char × List Char) :=
  match pySplit1 bashMarker content with
  | Except.error e => Except.error e
  | Except.ok parts =>
    match parts with
    | _ :: rest :: _ =>
      if hasSub rest fence then
        match pySplit1 fence rest with
        | Except.error e => Except.error e
        | Except.ok [codePart, textPart] => Except.ok (pyStrip codePart, pyStrip textPart)
        | Except.ok _ => Except.error unpackErr
      else Except.ok ([], [])
    | _ => Except.ok ([], [])

/-- Fallible untagged branch (cli_helper.py lines 110-117). -/
def genericStrategyE (content : List Char) : Except (List Char) (List Char × List Char) :=
  match pySplit1 fence content with
  | Except.error e => Except.error e
  | Except.ok parts =>
    match parts with
    | _ :: rest :: _ =>
      if hasSub rest fence then
        match pySplit1 fence rest with
        | Except.error e => Except.error e
        | Except.ok [codePart, textPart] => Except.ok (pyStrip codePart, pyStrip textPart)
        | Except.ok _ => Except.error unpackErr
      else Except.ok ([], [])
    | _ => Except.ok ([], [])

/-- Embedding of `parse_response` with every fallible primitive made
explicit; errors propagate as a Python exception would. -/
def parse_responseE (content : List Char) : Except (List Char) ParsedResult :=
  match (if hasSub content bashMarker then taggedStrategyE content
         else if hasSub content fence then genericStrategyE content
         else Except.ok (([] : List Char), ([] : List Char))) with
  | Except.error e => Except.error e
  | Except.ok cb =>
    let e1 := if cb.1.isEmpty && cb.2.isEmpty then content else cb.2
    Except.ok { code := cb.1, explanation := cleanLabel e1, raw := content }

/-!
Transport and query-handling models.  The HTTP call of
`get_llm_response` (cli_helper.py lines 66-92, web_app.py lines 56-64) is
abstracted by its observable outcome: either a response with a status
code, the raw response text, and the decoded `choices` contents, or an
exception raised before a status was obtained.  `choices` is `none` when
the decoded body has no `"choices"` key; each list element abstracts
`choices[i].message.content` (a malformed inner object is covered by the
generic exception outcome, as it would be caught by the same handler).
-/

/-- Observable outcome of the HTTP POST.  `netError` models
`requests.exceptions.RequestException`; `otherError` models any other
exception (including a body that fails to decode). -/
inductive CallOutcome where
  | success (status : Nat) (text : List Char) (choices : Option (List (List Char)))
  | netError (msg : List Char)
  | otherError (msg : List Char)

/-- Return dictionary of the CLI `get_llm_response`.  `raw = none` models
a dict carrying only the `"code"` and `"explanation"` keys;
`raw = some r` models the full `parse_response` dict. -/
structure RespDict where
  code : List Char
  explanation : List Char
  raw : Option (List Char)
  deriving DecidableEq

/-- Fallback explanation of the non-200 branch (cli_helper.py line 76). -/
def apiKeyErrMsg : List Char := lit "API 请求出错，请检查 Key 或网络。"

/-- Fallback explanation of the missing-choices branch (cli_helper.py line 85). -/
def noContentMsg : List Char := lit "模型未返回有效内容。"

/-- Fallback explanation of the network-error branch (cli_helper.py line 89). -/
def netFailMsg : List Char := lit "网络连接失败。"

/-- Fallback explanation of the generic-exception branch (cli_helper.py line 92). -/
def innerErrPre : List Char := lit "发生内部错误: "

/-- Embedding of the CLI `get_llm_response` (cli_helper.py lines 66-92) as
a function of the call outcome.  A non-200 status, a missing or empty
`choices` list, and both exception classes each return a fallback dict
without a `"raw"` key; only the successful path parses the stripped
message content. -/
def get_llm_response_cli : CallOutcome → RespDict
  | CallOutcome.success status _text choices =>
    if status ≠ 200 then { code := [], explanation := apiKeyErrMsg, raw := none }
    else
      match choices with
      | some (c :: _) =>
        let p := parse_response (pyStrip c)
        { code := p.code, explanation := p.explanation, raw := some p.raw }
      | _ => { code := [], explanation := noContentMsg, raw := none }
  | CallOutcome.netError _ => { code := [], explanation := netFailMsg, raw := none }
  | CallOutcome.otherError e => { code := [], explanation := innerErrPre ++ e, raw := none }

/-- The outcomes on which the CLI handler reaches `parse_response`
(cli_helper.py lines 81-83): status 200 with a non-empty `choices`. -/
def parseSuccessPath : CallOutcome → Bool
  | CallOutcome.success status _ (some (_ :: _)) => status == 200
  | _ => false

/-- Fallback text shown by `handle_query` when no command was extracted
(cli_helper.py line 209): `result["explanation"] or result.get("raw", "")`,
a defaulting lookup because the error dicts carry no `"raw"` key. -/
def fallbackDisplay (r : RespDict) : List Char :=
  if r.explanation.isEmpty then r.raw.getD [] else r.explanation

/-- Error text rendered by the web handler around a caught exception
(web_app.py line 64). -/
def webErrPre : List Char := lit "发生错误: "

/-- Rendering of Python `str(e)` for the `KeyError` raised by
`result['choices']` when the key is absent; the exact interpreter text
(the quoted key) is abstracted by this constant. -/
def keyErrChoicesMsg : List Char := lit "KeyError: choices"

/-- Message of the `IndexError` raised by `choices[0]` on an empty list. -/
def indexErrMsg : List Char := lit "list index out of range"

/-- Text prefix of the web non-200 branch (web_app.py line 62). -/
def webHttpFailPre : List Char := lit "API 请求失败: "

/-- Embedding of the web `get_llm_response` (web_app.py lines 56-64).  It
returns a plain string and performs no parsing.  On status 200 it indexes
`result['choices'][0]['message']['content']` directly; when `choices` is
absent or empty the raised `KeyError`/`IndexError` is caught by the
enclosing handler, which returns the error text instead of crashing. -/
def get_llm_response_web : CallOutcome → List Char
  | CallOutcome.success status text choices =>
    if status = 200 then
      match choices with
      | some (c :: _) => c
      | some [] => webErrPre ++ indexErrMsg
      | none => webErrPre ++ keyErrChoicesMsg
    else webHttpFailPre ++ (Nat.repr status).toList ++ lit " - " ++ text
  | CallOutcome.netError e => webErrPre ++ e
  | CallOutcome.otherError e => webErrPre ++ e

/-!
CLI dispatch guards.  `askDispatch` models the `ask` command
(cli_helper.py lines 139-151): with no arguments it prints a usage hint
and returns, otherwise it joins the arguments with single spaces and
dispatches.  `interactiveDispatch` models one iteration of the
interactive loop (cli_helper.py lines 161-173): an exit keyword leaves
the loop and a line that strips to nothing is skipped; any other line is
dispatched verbatim.  A `some q` value means `handle_query(q)` is
invoked.
-/

/-- Python `" ".join(parts)`. -/
def joinSpace : List (List Char) → List Char
  | [] => []
  | [x] => x
  | x :: y :: xs => x ++ (' ' :: joinSpace (y :: xs))

/-- Python `s.lower()` on the ASCII range (the exit keywords compared
against are ASCII or caseless). -/
def pyLower (s : List Char) : List Char :=
  s.map Char.toLower

/-- Exit keywords of the interactive loop (cli_helper.py line 166). -/
def exitWords : List (List Char) :=
  [lit "exit", lit "quit", lit "q", lit "退出"]

/-- Query dispatched by the `ask` command, if any. -/
def askDispatch (task : List (List Char)) : Option (List Char) :=
  if task.isEmpty then none else some (joinSpace task)

/-- Query dispatched by one interactive-loop iteration, if any. -/
def interactiveDispatch (line : List Char) : Option (List Char) :=
  if exitWords.contains (pyLower line) then none
  else if (pyStrip line).isEmpty then none
  else some line

/-! Basic lemmas about the embedded string primitives. -/

theorem startsWithL_append (p s : List Char) : startsWithL (p ++ s) p = true := by
  induction p with
  | nil => simp [startsWithL]
  | cons a as ih => simp [startsWithL, ih]

theorem hasSub_nilPat (s : List Char) : hasSub s ([] : List Char) = true := by
  cases s <;> simp [hasSub, startsWithL]

theorem hasSub_of_mid (x p y : List Char) : hasSub (x ++ (p ++ y)) p = true := by
  induction x with
  | nil =>
    cases p with
    | nil => simpa using hasSub_nilPat y
    | cons a as =>
      simp only [List.nil_append, List.cons_append, hasSub]
      have h1 : startsWithL (a :: (as ++ y)) (a :: as) = true := by
        simpa using startsWithL_append (a :: as) y
      simp [h1]
  | cons c t ih => simp [hasSub, ih]

theorem hasSub_append_self (p s : List Char) : hasSub (p ++ s) p = true := by
  simpa using hasSub_of_mid [] p s

theorem startsWithL_mono (s p q : List Char) (h : startsWithL s (p ++ q) = true) :
    startsWithL s p = true := by
  induction p generalizing s with
  | nil => simp [startsWithL]
  | cons a as ih =>
    cases s with
    | nil => simp [startsWithL] at h
    | cons c t =>
      simp [startsWithL] at h ⊢
      exact ⟨h.1, ih t h.2⟩

theorem hasSub_mono (s p q : List Char) (h : hasSub s (p ++ q) = true) :
    hasSub s p = true := by
  induction s with
  | nil =>
    simp [hasSub] at h ⊢
    exact startsWithL_mono [] p q h
  | cons c t ih =>
    simp [hasSub] at h ⊢
    rcases h with h | h
    · exact Or.inl (startsWithL_mono _ p q h)
    · exact Or.inr (ih h)

theorem splitOnce_head (p s : List Char) (hp : p ≠ []) :
    splitOnce p (p ++ s) = some ([], s) := by
  cases p with
  | nil => exact absurd rfl hp
  | cons a as =>
    have h1 : startsWithL ((a :: as) ++ s) (a :: as) = true := startsWithL_append _ _
    simp only [List.cons_append] at h1
    simp [splitOnce, h1, List.drop_left]

theorem splitOnce_isSome_iff (pat : List Char) (hp : pat ≠ []) :
    ∀ s, (splitOnce pat s).isSome = hasSub s pat := by
  intro s
  induction s with
  | nil =>
    cases pat with
    | nil => exact absurd rfl hp
    | cons a as => simp [splitOnce, hasSub, startsWithL]
  | cons c t ih =>
    cases hc : startsWithL (c :: t) pat with
    | true => simp [splitOnce, hasSub, hc]
    | false =>
      cases hx : splitOnce pat t with
      | none => simp [splitOnce, hasSub, hc, ← ih, hx]
      | some ab =>
        obtain ⟨a, b⟩ := ab
        simp [splitOnce, hasSub, hc, ← ih, hx]

theorem splitOnce_of_hasSub (pat s : List Char) (hp : pat ≠ []) (h : hasSub s pat = true) :
    ∃ a b, splitOnce pat s = some (a, b) := by
  have hiff := splitOnce_isSome_iff pat hp s
  rw [h] at hiff
  cases hx : splitOnce pat s with
  | none => rw [hx] at hiff; simp at hiff
  | some ab => exact ⟨ab.1, ab.2, by simp [hx]⟩

theorem hasSub_of_splitOnce (pat s a b : List Char) (hp : pat ≠ [])
    (h : splitOnce pat s = some (a, b)) : hasSub s pat = true := by
  have hiff := splitOnce_isSome_iff pat hp s
  rw [h] at hiff
  simpa using hiff.symm

theorem fence_chars : fence = [tick, tick, tick] := by decide

theorem bashMarker_decomp : bashMarker = fence ++ lit "bash" := by decide

theorem hasSub_fence_of_bash (s : List Char) (h : hasSub s bashMarker = true) :
    hasSub s fence = true := by
  apply hasSub_mono s fence (lit "bash")
  rw [← bashMarker_decomp]
  exact h

/-- When `x` holds no fence and does not end in a backtick, the first
fence occurrence in `x ++ fence ++ y` is exactly the explicit one, so the
split returns `(x, y)`. -/
theorem splitOnce_fence_mid : ∀ (x y : List Char),
    hasSub x fence = false → x.getLast? ≠ some tick →
    splitOnce fence (x ++ (fence ++ y)) = some (x, y) := by
  intro x y
  induction x with
  | nil =>
    intro _ _
    simpa using splitOnce_head fence y (by decide)
  | cons c t ih =>
    intro h1 h2
    have hparts : startsWithL (c :: t) fence = false ∧ hasSub t fence = false := by
      simpa [hasSub] using h1
    have hsw : startsWithL (c :: (t ++ (fence ++ y))) fence = false := by
      cases hb : startsWithL (c :: (t ++ (fence ++ y))) fence with
      | false => rfl
      | true =>
        exfalso
        rw [fence_chars] at hb
        simp only [startsWithL, Bool.and_eq_true, beq_iff_eq] at hb
        obtain ⟨hc, hb2⟩ := hb
        cases t with
        | nil => exact h2 (by simp [hc])
        | cons d t2 =>
          cases t2 with
          | nil =>
            simp only [List.cons_append, List.nil_append, startsWithL,
              Bool.and_eq_true, beq_iff_eq] at hb2
            exact h2 (by simp [hb2.1])
          | cons e t3 =>
            simp only [List.cons_append, startsWithL, Bool.and_eq_true,
              beq_iff_eq] at hb2
            have hfull : startsWithL (c :: d :: e :: t3) fence = true := by
              rw [fence_chars]
              simp [startsWithL, hc, hb2.1, hb2.2.1]
            rw [hfull] at hparts
            exact Bool.noConfusion hparts.1
    have ht2 : t.getLast? ≠ some tick := by
      cases t with
      | nil => simp
      | cons d t2 =>
        rw [← List.getLast?_cons_cons (a := c)]
        exact h2
    have hrec := ih hparts.2 ht2
    simp only [List.cons_append]
    simp [splitOnce, hsw, hrec]

theorem replAux_no_occ (pat r : List Char) :
    ∀ s, hasSub s pat = false → replAux pat r 0 s = s := by
  intro s
  induction s with
  | nil => intro _; rfl
  | cons c t ih =>
    intro h
    have hparts : startsWithL (c :: t) pat = false ∧ hasSub t pat = false := by
      simpa [hasSub] using h
    simp [replAux, hparts.1, ih hparts.2]

theorem replaceAll_no_occ (pat r s : List Char) (h : hasSub s pat = false) :
    replaceAll pat r s = s :=
  replAux_no_occ pat r s h

theorem replAux_skip (pat r : List Char) :
    ∀ x s, replAux pat r x.length (x ++ s) = replAux pat r 0 s := by
  intro x
  induction x with
  | nil => intro s; rfl
  | cons c t ih => intro s; simpa [replAux] using ih s

theorem replaceAll_head (pat r s : List Char) (hp : pat ≠ []) :
    replaceAll pat r (pat ++ s) = r ++ replaceAll pat r s := by
  cases pat with
  | nil => exact absurd rfl hp
  | cons a as =>
    have h1 : startsWithL (a :: (as ++ s)) (a :: as) = true := by
      simpa using startsWithL_append (a :: as) s
    have h2 := replAux_skip (a :: as) r as s
    show replAux (a :: as) r 0 ((a :: as) ++ s) = r ++ replAux (a :: as) r 0 s
    simp [replAux, List.append_eq, h1, h2]

theorem labelFull_chars : labelFull = ['说', '明', '：'] := by decide

theorem labelHalf_chars : labelHalf = ['说', '明', ':'] := by decide

/-- The full-width label cannot occur across the junction of the
half-width label and a label-free remainder. -/
theorem hasSub_labelFull_half_append (post : List Char)
    (h : hasSub post labelFull = false) :
    hasSub (labelHalf ++ post) labelFull = false := by
  rw [labelHalf_chars]
  have k1 : ((':' : Char) == '：') = false := by decide
  have k2 : (('明' : Char) == '说') = false := by decide
  have k3 : ((':' : Char) == '说') = false := by decide
  rw [labelFull_chars] at h ⊢
  simp [hasSub, startsWithL, k1, k2, k3, h]

/-- Removing the full-width label from `a ++ label ++ b` when neither
side holds a further occurrence removes exactly the explicit one: the
label cannot straddle either junction because its first character differs
from its other characters. -/
theorem replaceAll_labelFull_mid : ∀ (a b : List Char),
    hasSub a labelFull = false → hasSub b labelFull = false →
    replaceAll labelFull [] (a ++ (labelFull ++ b)) = a ++ b := by
  intro a
  induction a with
  | nil =>
    intro b _ hb
    simp only [List.nil_append]
    rw [replaceAll_head labelFull [] b (by decide)]
    rw [replaceAll_no_occ labelFull [] b hb]
    rfl
  | cons c t ih =>
    intro b ha hb
    have hparts : startsWithL (c :: t) labelFull = false ∧ hasSub t labelFull = false := by
      simpa [hasSub] using ha
    have hsw : startsWithL (c :: (t ++ (labelFull ++ b))) labelFull = false := by
      cases hb0 : startsWithL (c :: (t ++ (labelFull ++ b))) labelFull with
      | false => rfl
      | true =>
        exfalso
        rw [labelFull_chars] at hb0
        simp only [startsWithL, Bool.and_eq_true, beq_iff_eq] at hb0
        obtain ⟨hc, hb2⟩ := hb0
        cases t with
        | nil =>
          have k : (('说' : Char) == '明') = false := by decide
          simp [startsWithL, k] at hb2
        | cons d t2 =>
          cases t2 with
          | nil =>
            have k : (('说' : Char) == '：') = false := by decide
            simp [startsWithL, k] at hb2
          | cons e t3 =>
            simp only [List.cons_append, startsWithL, Bool.and_eq_true,
              beq_iff_eq] at hb2
            have hfull : startsWithL (c :: d :: e :: t3) labelFull = true := by
              rw [labelFull_chars]
              simp [startsWithL, hc, hb2.1, hb2.2.1]
            rw [hfull] at hparts
            exact Bool.noConfusion hparts.1
    show replAux labelFull [] 0 ((c :: t) ++ (labelFull ++ b)) = (c :: t) ++ b
    have hrec := ih b hparts.2 hb
    simp only [List.cons_append, List.append_eq, replAux, hsw, Bool.false_eq_true,
      if_false, List.cons.injEq, true_and]
    exact hrec

/-!
Claim C1.  The claim as frozen asserts that for every tagged block
followed by a labeled explanation the returned explanation is exactly the
post-label text trimmed.  The code removes every occurrence of both label
forms (cli_helper.py line 124 uses `replace`, not a prefix strip), so a
further label occurrence inside the post-label text is deleted as well:
the claim fails on such replies and holds once the post-label text is
label-free.  The named scenario itself holds and is the witness below.
-/

/-- Claim C1, counterexample: in the reply
` ```bash\nls\n``` ` followed by `说明：a说明：b`, the post-label text is
`a说明：b`, but the parser returns `ab` because the inner label
occurrence is removed too. -/
theorem claim1_counterexample :
    parse_response (lit "```bash\nls\n```\n说明：a说明：b") =
      { code := lit "ls", explanation := lit "ab",
        raw := lit "```bash\nls\n```\n说明：a说明：b" } ∧
    (lit "ab" : List Char) ≠ lit "a说明：b" := by
  decide

/-- Claim C1, amended: for every reply made of the tagged opener, a block
body closed by the next bare fence, and a tail whose trimmed form starts
with either localized label, the parser returns the trimmed body as the
command and the trimmed post-label text as the explanation, provided the
post-label text holds no further occurrence of either label. -/
theorem claim1_tagged_block_extraction (body tail post lab : List Char)
    (hb1 : hasSub body fence = false)
    (hb2 : body.getLast? ≠ some tick)
    (hlab : lab = labelFull ∨ lab = labelHalf)
    (ht : pyStrip tail = lab ++ post)
    (hp1 : hasSub post labelFull = false)
    (hp2 : hasSub post labelHalf = false) :
    parse_response (bashMarker ++ (body ++ (fence ++ tail))) =
      { code := pyStrip body, explanation := pyStrip post,
        raw := bashMarker ++ (body ++ (fence ++ tail)) } := by
  have hbm : hasSub (bashMarker ++ (body ++ (fence ++ tail))) bashMarker = true :=
    hasSub_append_self _ _
  have hsplit1 : splitOnce bashMarker (bashMarker ++ (body ++ (fence ++ tail))) =
      some ([], body ++ (fence ++ tail)) :=
    splitOnce_head _ _ (by decide)
  have hrest : hasSub (body ++ (fence ++ tail)) fence = true :=
    hasSub_of_mid _ _ _
  have hsplit2 : splitOnce fence (body ++ (fence ++ tail)) = some (body, tail) :=
    splitOnce_fence_mid body tail hb1 hb2
  have htag : taggedStrategy (bashMarker ++ (body ++ (fence ++ tail))) =
      (pyStrip body, pyStrip tail) := by
    unfold taggedStrategy
    rw [hsplit1]
    simp [hrest, hsplit2]
  have hlabne : lab ≠ [] := by
    rcases hlab with h | h <;> subst h <;> decide
  have hemp : (pyStrip tail).isEmpty = false := by
    rw [ht]
    cases hl : lab with
    | nil => exact absurd hl hlabne
    | cons x xs => rfl
  have hclean : cleanLabel (pyStrip tail) = pyStrip post := by
    rw [ht]
    unfold cleanLabel
    rcases hlab with h | h
    · subst h
      rw [replaceAll_head labelFull [] post (by decide)]
      rw [replaceAll_no_occ labelFull [] post hp1]
      rw [List.nil_append]
      rw [replaceAll_no_occ labelHalf [] post hp2]
    · subst h
      rw [replaceAll_no_occ labelFull [] (labelHalf ++ post)
        (hasSub_labelFull_half_append post hp1)]
      rw [replaceAll_head labelHalf [] post (by decide)]
      rw [replaceAll_no_occ labelHalf [] post hp2]
      rw [List.nil_append]
  simp only [parse_response, hbm, if_true, htag, hemp, Bool.and_false,
    Bool.false_eq_true, if_false, hclean]

/-- Claim C1, witness: the spec scenario, settled by applying the amended
theorem at its concrete instance. -/
theorem claim1_witness :
    lit "```bash\ntar -xzvf file.tar.gz\n```\n说明：解压文件" =
      bashMarker ++ (lit "\ntar -xzvf file.tar.gz\n" ++ (fence ++ lit "\n说明：解压文件")) ∧
    parse_response (bashMarker ++ (lit "\ntar -xzvf file.tar.gz\n" ++ (fence ++ lit "\n说明：解压文件"))) =
      { code := lit "tar -xzvf file.tar.gz", explanation := lit "解压文件",
        raw := bashMarker ++ (lit "\ntar -xzvf file.tar.gz\n" ++ (fence ++ lit "\n说明：解压文件")) } := by
  constructor
  · decide
  · have h := claim1_tagged_block_extraction (lit "\ntar -xzvf file.tar.gz\n")
      (lit "\n说明：解压文件") (lit "解压文件") labelFull
      (by decide) (by decide) (Or.inl rfl) (by decide) (by decide) (by decide)
    rw [h]
    decide

/-!
Claim C2.  The spec says an unmatched tagged opener is treated as "no
block found" and falls through to the generic untagged strategy.  The
code's branch chain is an elif: once the tagged opener occurs anywhere,
the generic branch is never attempted.  A reply holding a complete
untagged fence pair before an unmatched tagged opener therefore yields no
command, where the claimed fall-through would have extracted one.  The
concrete scenario of the claim does hold and is the witness.
-/

/-- Claim C2, counterexample: this reply holds the tagged opener with no
closer after it, the generic strategy alone would extract `echo hi`, yet
the parser returns an empty command because the generic branch is dead
once the tagged opener occurred. -/
theorem claim2_counterexample :
    hasSub (lit "``` echo hi ```\n```bash\nls") bashMarker = true ∧
    splitOnce bashMarker (lit "``` echo hi ```\n```bash\nls") =
      some (lit "``` echo hi ```\n", lit "\nls") ∧
    hasSub (lit "\nls") fence = false ∧
    (genericStrategy (lit "``` echo hi ```\n```bash\nls")).1 = lit "echo hi" ∧
    (parse_response (lit "``` echo hi ```\n```bash\nls")).code = [] := by
  decide

/-- Claim C2, amended: when the reply holds the tagged opener but no bare
fence after its first occurrence, the tagged branch extracts nothing, the
generic branch is never attempted, and the unstructured fallback makes
the explanation the whole reply after label cleanup, with empty command. -/
theorem claim2_unmatched_opener (content pre rest : List Char)
    (h1 : splitOnce bashMarker content = some (pre, rest))
    (h2 : hasSub rest fence = false) :
    parse_response content =
      { code := [], explanation := cleanLabel content, raw := content } := by
  have hbm : hasSub content bashMarker = true :=
    hasSub_of_splitOnce bashMarker content pre rest (by decide) h1
  have htag : taggedStrategy content = ([], []) := by
    unfold taggedStrategy
    rw [h1]
    simp [h2]
  simp [parse_response, hbm, htag]

/-- Claim C2, witness: the spec scenario with the unmatched opener,
settled through the amended theorem. -/
theorem claim2_witness :
    parse_response (lit "```bash\nls -la") =
      { code := [], explanation := cleanLabel (lit "```bash\nls -la"),
        raw := lit "```bash\nls -la" } ∧
    cleanLabel (lit "```bash\nls -la") = lit "```bash\nls -la" := by
  constructor
  · exact claim2_unmatched_opener (lit "```bash\nls -la") [] (lit "\nls -la")
      (by decide) (by decide)
  · decide

/-!
Claim C3.  The claim says the label is stripped only as a prefix of the
extracted explanation and passed through verbatim elsewhere.  Line 124
uses `str.replace`, which removes every occurrence wherever it sits.
-/

/-- Claim C3, counterexample: a label in the middle of a plain reply is
removed, not passed through verbatim. -/
theorem claim3_counterexample :
    (parse_response (lit "你好说明：测试")).explanation = lit "你好测试" ∧
    (lit "你好测试" : List Char) ≠ lit "你好说明：测试" := by
  decide

/-- Claim C3, amended: the label is removed wherever it occurs, not only
as a prefix.  For a fence-free reply `a ++ label ++ b` whose side pieces
hold no further label occurrence, the returned explanation is the
trimmed concatenation with the interior label deleted. -/
theorem claim3_label_removed_everywhere (a b : List Char)
    (hf : hasSub (a ++ (labelFull ++ b)) fence = false)
    (ha : hasSub a labelFull = false)
    (hb : hasSub b labelFull = false)
    (hhalf : hasSub (a ++ b) labelHalf = false) :
    parse_response (a ++ (labelFull ++ b)) =
      { code := [], explanation := pyStrip (a ++ b), raw := a ++ (labelFull ++ b) } := by
  have hbm : hasSub (a ++ (labelFull ++ b)) bashMarker = false := by
    cases hx : hasSub (a ++ (labelFull ++ b)) bashMarker with
    | false => rfl
    | true => exact absurd (hasSub_fence_of_bash _ hx) (by simp [hf])
  have hclean : cleanLabel (a ++ (labelFull ++ b)) = pyStrip (a ++ b) := by
    unfold cleanLabel
    rw [replaceAll_labelFull_mid a b ha hb]
    rw [replaceAll_no_occ labelHalf [] (a ++ b) hhalf]
  simp [parse_response, hbm, hf, hclean]

/-- Claim C3, witness: a concrete mid-string label removal through the
amended theorem. -/
theorem claim3_witness :
    parse_response (lit "你好" ++ (labelFull ++ lit "测试")) =
      { code := [], explanation := pyStrip (lit "你好" ++ lit "测试"),
        raw := lit "你好" ++ (labelFull ++ lit "测试") } ∧
    pyStrip (lit "你好" ++ lit "测试") = lit "你好测试" := by
  constructor
  · exact claim3_label_removed_everywhere (lit "你好") (lit "测试")
      (by decide) (by decide) (by decide) (by decide)
  · decide

/-!
Claim C4.  The claim says a fence-free reply comes back as the full
trimmed reply.  The label cleanup of line 124 runs on this path too, so a
fence-free reply holding a label occurrence is altered; replies free of
label occurrences are returned in full, trimmed.
-/

/-- Claim C4, counterexample: a fence-free reply holding an interior
label does not equal its own returned explanation. -/
theorem claim4_counterexample :
    (parse_response (lit "当前目录说明：为空")).explanation = lit "当前目录为空" ∧
    pyStrip (lit "当前目录说明：为空") = lit "当前目录说明：为空" ∧
    (lit "当前目录为空" : List Char) ≠ lit "当前目录说明：为空" := by
  decide

/-- Claim C4, amended: with no fence anywhere the command is empty and
the explanation is the whole reply after label cleanup; when the reply
holds no label occurrence that is exactly the full trimmed reply. -/
theorem claim4_no_fence_fallback (content : List Char)
    (hf : hasSub content fence = false) :
    parse_response content =
      { code := [], explanation := cleanLabel content, raw := content } ∧
    (hasSub content labelFull = false → hasSub content labelHalf = false →
      cleanLabel content = pyStrip content) := by
  have hbm : hasSub content bashMarker = false := by
    cases hx : hasSub content bashMarker with
    | false => rfl
    | true => exact absurd (hasSub_fence_of_bash _ hx) (by simp [hf])
  constructor
  · simp [parse_response, hbm, hf]
  · intro h1 h2
    unfold cleanLabel
    rw [replaceAll_no_occ labelFull [] content h1]
    rw [replaceAll_no_occ labelHalf [] content h2]

/-- Claim C4, witness: the spec scenario, a label-free conversational
reply returned in full. -/
theorem claim4_witness :
    parse_response (lit "你好，有什么可以帮您？") =
      { code := [], explanation := cleanLabel (lit "你好，有什么可以帮您？"),
        raw := lit "你好，有什么可以帮您？" } ∧
    cleanLabel (lit "你好，有什么可以帮您？") = lit "你好，有什么可以帮您？" := by
  constructor
  · exact (claim4_no_fence_fallback (lit "你好，有什么可以帮您？") (by decide)).1
  · decide

/-!
Claim C5.  The untagged extraction mirrors the tagged one, except for the
fallback of cli_helper.py lines 120-121: when both the trimmed body and
the trimmed tail are empty, the whole reply becomes the explanation, so
the claim fails on an all-whitespace block and tail.
-/

/-- Claim C5, counterexample: an untagged blank block with a blank tail
is not parsed into the (empty) trimmed body and tail; the whole reply is
returned as the explanation instead. -/
theorem claim5_counterexample :
    (lit "``` ``` " : List Char) =
      ([] : List Char) ++ (fence ++ (lit " " ++ (fence ++ lit " "))) ∧
    (parse_response (lit "``` ``` ")).explanation = lit "``` ```" ∧
    cleanLabel (pyStrip (lit " ")) = [] ∧
    (lit "``` ```" : List Char) ≠ [] := by
  decide

/-- Claim C5, amended: a reply whose first fence opens an untagged block
closed by the next fence, with no tagged opener anywhere, parses into the
trimmed body as command and the label-cleaned trimmed tail as
explanation — provided the trimmed body and trimmed tail are not both
empty (otherwise the unstructured fallback takes over). -/
theorem claim5_untagged_block_extraction (pre body tail : List Char)
    (hnb : hasSub (pre ++ (fence ++ (body ++ (fence ++ tail)))) bashMarker = false)
    (hp1 : hasSub pre fence = false)
    (hp2 : pre.getLast? ≠ some tick)
    (hb1 : hasSub body fence = false)
    (hb2 : body.getLast? ≠ some tick)
    (hne : ((pyStrip body).isEmpty && (pyStrip tail).isEmpty) = false) :
    parse_response (pre ++ (fence ++ (body ++ (fence ++ tail)))) =
      { code := pyStrip body, explanation := cleanLabel (pyStrip tail),
        raw := pre ++ (fence ++ (body ++ (fence ++ tail))) } := by
  have hf : hasSub (pre ++ (fence ++ (body ++ (fence ++ tail)))) fence = true :=
    hasSub_of_mid _ _ _
  have hsplit1 : splitOnce fence (pre ++ (fence ++ (body ++ (fence ++ tail)))) =
      some (pre, body ++ (fence ++ tail)) :=
    splitOnce_fence_mid pre (body ++ (fence ++ tail)) hp1 hp2
  have hrest : hasSub (body ++ (fence ++ tail)) fence = true :=
    hasSub_of_mid _ _ _
  have hsplit2 : splitOnce fence (body ++ (fence ++ tail)) = some (body, tail) :=
    splitOnce_fence_mid body tail hb1 hb2
  have hgen : genericStrategy (pre ++ (fence ++ (body ++ (fence ++ tail)))) =
      (pyStrip body, pyStrip tail) := by
    unfold genericStrategy
    rw [hsplit1]
    simp [hrest, hsplit2]
  simp [parse_response, hnb, hf, hgen, hne]

/-- Claim C5, witness: an ordinary untagged block reply, settled through
the amended theorem. -/
theorem claim5_witness :
    parse_response (([] : List Char) ++ (fence ++ (lit "\nls -la\n" ++ (fence ++ lit "\n列出文件")))) =
      { code := pyStrip (lit "\nls -la\n"),
        explanation := cleanLabel (pyStrip (lit "\n列出文件")),
        raw := ([] : List Char) ++ (fence ++ (lit "\nls -la\n" ++ (fence ++ lit "\n列出文件"))) } ∧
    pyStrip (lit "\nls -la\n") = lit "ls -la" ∧
    cleanLabel (pyStrip (lit "\n列出文件")) = lit "列出文件" := by
  refine ⟨?_, by decide, by decide⟩
  exact claim5_untagged_block_extraction [] (lit "\nls -la\n") (lit "\n列出文件")
    (by decide) (by decide) (by decide) (by decide) (by decide) (by decide)

/-- Claim C6: the `raw` field of the parse result always equals the
unmodified input reply. -/
theorem claim6_raw_preserved (content : List Char) :
    (parse_response content).raw = content := rfl

theorem taggedStrategyE_ok (content : List Char) :
    taggedStrategyE content = Except.ok (taggedStrategy content) := by
  have hbne : bashMarker.isEmpty = false := by decide
  have hfne : fence.isEmpty = false := by decide
  cases hx : splitOnce bashMarker content with
  | none => simp [taggedStrategyE, taggedStrategy, pySplit1, hbne, hx]
  | some ab =>
    obtain ⟨a, rest⟩ := ab
    cases hr : hasSub rest fence with
    | false => simp [taggedStrategyE, taggedStrategy, pySplit1, hbne, hx, hr]
    | true =>
      obtain ⟨c, t, hct⟩ := splitOnce_of_hasSub fence rest (by decide) hr
      simp [taggedStrategyE, taggedStrategy, pySplit1, hbne, hfne, hx, hr, hct]

theorem genericStrategyE_ok (content : List Char) :
    genericStrategyE content = Except.ok (genericStrategy content) := by
  have hfne : fence.isEmpty = false := by decide
  cases hx : splitOnce fence content with
  | none => simp [genericStrategyE, genericStrategy, pySplit1, hfne, hx]
  | some ab =>
    obtain ⟨a, rest⟩ := ab
    cases hr : hasSub rest fence with
    | false => simp [genericStrategyE, genericStrategy, pySplit1, hfne, hx, hr]
    | true =>
      obtain ⟨c, t, hct⟩ := splitOnce_of_hasSub fence rest (by decide) hr
      simp [genericStrategyE, genericStrategy, pySplit1, hfne, hx, hr, hct]

/-- Claim C7: the parser is total.  Under the fallible-primitives model
every run returns `ok` with the pure parse result — no error branch
(empty separator, failed unpack) is reachable on any input. -/
theorem claim7_parser_total (content : List Char) :
    parse_responseE content = Except.ok (parse_response content) := by
  cases h1 : hasSub content bashMarker with
  | true => simp [parse_responseE, parse_response, h1, taggedStrategyE_ok]
  | false =>
    cases h2 : hasSub content fence with
    | true => simp [parse_responseE, parse_response, h1, h2, genericStrategyE_ok]
    | false => simp [parse_responseE, parse_response, h1, h2]

/-- Claim C8: an HTTP 200 whose decoded body lacks a non-empty `choices`
crashes neither front end.  The CLI returns the fallback dict with empty
command and the no-content description; the web handler catches the
lookup error raised by the direct indexing and returns the error text. -/
theorem claim8_missing_choices (t : List Char) :
    get_llm_response_cli (CallOutcome.success 200 t none) =
      { code := [], explanation := noContentMsg, raw := none } ∧
    get_llm_response_cli (CallOutcome.success 200 t (some [])) =
      { code := [], explanation := noContentMsg, raw := none } ∧
    get_llm_response_web (CallOutcome.success 200 t none) =
      webErrPre ++ keyErrChoicesMsg ∧
    get_llm_response_web (CallOutcome.success 200 t (some [])) =
      webErrPre ++ indexErrMsg := by
  refine ⟨?_, ?_, ?_, ?_⟩ <;> rfl

/-!
Claim C9.  The claim holds for the two guards it names — `ask` with no
arguments and blank interactive lines — but its universal conclusion
fails: `ask` invoked with explicit empty-string arguments joins them and
dispatches, so `handle_query` can receive an empty query.
-/

/-- Claim C9, counterexample: `ask ""` has a non-empty argument tuple, so
the guard passes and the empty joined query is dispatched. -/
theorem claim9_counterexample :
    askDispatch [lit ""] = some (lit "") ∧ (lit "" : List Char) = [] := by
  decide

/-- Claim C9, amended: `ask` with no arguments dispatches nothing, and
the interactive loop never dispatches a query that is empty or blank;
only `ask` with explicitly empty (or whitespace) argument strings can
still hand an empty query to the handler. -/
theorem claim9_empty_rejection :
    askDispatch [] = none ∧
    (∀ line q : List Char, interactiveDispatch line = some q →
      q ≠ [] ∧ pyStrip q ≠ []) := by
  constructor
  · rfl
  · intro line q h
    unfold interactiveDispatch at h
    cases h1 : exitWords.contains (pyLower line) with
    | true => rw [h1] at h; simp at h
    | false =>
      rw [h1] at h
      cases h2 : (pyStrip line).isEmpty with
      | true => rw [h2] at h; simp at h
      | false =>
        rw [h2] at h
        simp at h
        subst h
        constructor
        · intro hq
          rw [hq] at h2
          exact absurd h2 (by decide)
        · intro hq
          rw [hq] at h2
          simp at h2

/-- Claim C9, witness: an ordinary interactive line is dispatched and is
neither empty nor blank, through the amended theorem. -/
theorem claim9_witness :
    interactiveDispatch (lit "ls") = some (lit "ls") ∧
    (lit "ls" : List Char) ≠ [] ∧ pyStrip (lit "ls") ≠ [] := by
  have h := claim9_empty_rejection.2 (lit "ls") (lit "ls") (by decide)
  exact ⟨by decide, h.1, h.2⟩

/-- Claim C10: the CLI fallback dicts carry no `raw` key — `raw` is
absent exactly off the successful parse path (status 200 with a
non-empty `choices`), which is why `handle_query` reads it with a
defaulting lookup. -/
theorem claim10_raw_only_on_parse (o : CallOutcome) :
    (get_llm_response_cli o).raw = none ↔ parseSuccessPath o = false := by
  cases o with
  | success status t choices =>
    cases choices with
    | none =>
      constructor
      · intro _; rfl
      · intro _
        simp only [get_llm_response_cli]
        split <;> rfl
    | some cs =>
      cases cs with
      | nil =>
        constructor
        · intro _; rfl
        · intro _
          simp only [get_llm_response_cli]
          split <;> rfl
      | cons c rest =>
        by_cases h : status = 200
        · subst h
          simp [get_llm_response_cli, parseSuccessPath]
        · simp [get_llm_response_cli, parseSuccessPath, h]
  | netError e =>
    constructor
    · intro _; rfl
    · intro _; rfl
  | otherError e =>
    constructor
    · intro _; rfl
    · intro _; rfl
